import Mathlib

/-!
A shallow embedding of the events pipeline of the web3-events library
(src/events.ts): configuration and construction of the events emitter,
event classification (processEvents), batched fetching
(batchFetchAndProcessEvents), reorg detection (isReorg), reorg remediation
(handleReorg), initial catch-up (init / processPastEvents) and the polling
loop (PollingEventsEmitter.poll).

Conventions:
* JavaScript numbers are modelled as `Nat` (block numbers, sizes) or `Int`
  (quantities that may go negative, such as `confirmations` and the
  confirmation threshold `currentBlockNumber - confirmations`).
* Fallible external calls (the chain RPC and the events table) are oracles
  in `Env` returning `Except` / `Option` results.
* The observable effects of one cycle (emitted events, progress reports,
  log-fetch calls, tracker and buffer state, caught errors) are threaded
  through a `Cycle` record; a thrown JavaScript error is the
  `Option JsError` component of a result pair.
-/

namespace Web3Events

/-- A block header as the library uses it: a (number, hash) pair. -/
structure BlockRef where
  number : Nat
  hash : String
deriving DecidableEq, Repr

/-- A decoded contract log (web3 EventData), restricted to the fields the
pipeline reads; `event` is the decoded event name. -/
structure EventData where
  event : String
  blockNumber : Nat
  blockHash : String
  transactionHash : String
  logIndex : Nat
deriving DecidableEq, Repr

/-- Batch progress report, from src/definitions.ts. -/
structure ProgressInfo where
  stepsComplete : Nat
  totalSteps : Nat
  stepFromBlock : Nat
  stepToBlock : Nat
deriving DecidableEq, Repr

/-- The two cursors persisted by the block tracker. -/
structure TrackerState where
  lastFetched : Option BlockRef
  lastProcessed : Option BlockRef
deriving DecidableEq, Repr

/-- The startingBlock option: an integer, the string 'genesis', or the
string 'latest'. -/
inductive StartingBlock where
  | genesis
  | latest
  | num (n : Nat)
deriving DecidableEq, Repr

/-- A from/to block argument as it flows through the JS code: a number or a
raw string tag. -/
inductive BlockArg where
  | num (n : Nat)
  | str (s : String)
deriving DecidableEq, Repr

/-- Database-layer failure of a bulk insert. -/
inductive DbError where
  | uniqueConstraint
  | other (msg : String)
deriving DecidableEq, Repr

/-- JavaScript errors thrown inside the pipeline. -/
inductive JsError where
  | rpc (msg : String)
  | notNumbers
  | invalidRange
  | duplicatedEvents
  | db (msg : String)
  | missingTopicsOrEvents
  | confirmatorUndefined
deriving DecidableEq, Repr

/-- External oracles consumed by one cycle: the chain RPC (web3 Eth and the
contract's getPastEvents, the latter already reflecting any server-side
topics filter) and the events table (the Event model). -/
structure Env where
  getBlock : Nat → Except String BlockRef
  getLatest : Except String BlockRef
  getPastLogs : Nat → Nat → Except String (List EventData)
  bulkCreate : List EventData → Option DbError

/-- An environment in which every external call succeeds: block `n` has hash
`hashAt n`, a range fetch returns `logs a b`, the head is `latest` and all
inserts succeed. -/
def mkEnv (hashAt : Nat → String) (logs : Nat → Nat → List EventData)
    (latest : BlockRef) : Env where
  getBlock := fun n => .ok ⟨n, hashAt n⟩
  getLatest := .ok latest
  getPastLogs := fun a b => .ok (logs a b)
  bulkCreate := fun _ => none

/-- The fields of a constructed BaseEventsEmitter that the pipeline reads. -/
structure EmitterConfig where
  topics : Option (List String)
  eventNames : Option (List String)
  confirmations : Int
  batchSize : Nat
  startingBlock : StartingBlock
  serialListeners : Bool
  serialProcessing : Bool
  confirmator : Option Unit
deriving DecidableEq, Repr

/-- The EventsEmitterOptions record (src/definitions.ts), every field
optional. -/
structure EventsEmitterOptions where
  topics : Option (List String)
  events : Option (List String)
  batchSize : Option Nat
  confirmations : Option Int
  startingBlock : Option StartingBlock
  confirmator : Option Unit
  serialListeners : Option Bool
  serialProcessing : Option Bool
deriving DecidableEq, Repr

/-- Modelled from the spec: hashTopics lives in src/utils.ts, which is not
among the sources; per the spec, raw event signatures are keccak-256 hashed
at construction time and an absent option stays absent. Only presence
matters to the claims, so the hash is modelled as an injective tag. -/
def hashTopic (s : String) : String := "keccak256:" ++ s

/-- Option-level lift of `hashTopic`, mirroring that hashTopics maps an
undefined topics option to undefined. -/
def hashTopics (topics : Option (List String)) : Option (List String) :=
  topics.map (List.map hashTopic)

/-- The BaseEventsEmitter constructor (src/events.ts, lines 44-68): option
defaulting, topic hashing, the topics/events validation, and the
conditional construction of the confirmator. The thrown configuration
error is the `.error` case. -/
def mkEmitter (opts : EventsEmitterOptions) : Except JsError EmitterConfig :=
  let eventNames := opts.events
  let startingBlock := opts.startingBlock.getD .genesis
  let confirmations := opts.confirmations.getD 0
  let topics := hashTopics opts.topics
  let batchSize := opts.batchSize.getD 120
  if topics.isNone && eventNames.isNone then
    .error .missingTopicsOrEvents
  else
    .ok { topics := topics
          eventNames := eventNames
          confirmations := confirmations
          batchSize := batchSize
          startingBlock := startingBlock
          serialListeners := opts.serialListeners.getD false
          serialProcessing := opts.serialProcessing.getD false
          confirmator := if 0 < confirmations then some () else none }

/-- Observable state and trace of one fetch or poll cycle. `fetched` records
every getPastEvents range call; `errorChannel` holds payloads the cycle
emits on the emitter's error channel; `caught` holds errors swallowed and
logged by the catch block of `poll`. Listener-side failures (rerouted by
the `.catch` attached to each emit) are outside the model, which has no
listeners. -/
structure Cycle where
  fetched : List (Nat × Nat)
  progress : List ProgressInfo
  newEvents : List EventData
  invalidConfirmations : List EventData
  reorgEmitted : Bool
  reorgOutOfRange : List Nat
  errorChannel : List JsError
  caught : List JsError
  tracker : TrackerState
  buffer : List EventData
deriving DecidableEq, Repr

/-- The cycle state before any effect happened. -/
def initialCycle (st : TrackerState) (buffer : List EventData) : Cycle :=
  { fetched := []
    progress := []
    newEvents := []
    invalidConfirmations := []
    reorgEmitted := false
    reorgOutOfRange := []
    errorChannel := []
    caught := []
    tracker := st
    buffer := buffer }

/-- Modelled from the spec: BlockTracker.setLastFetchedBlock
(block-tracker.ts is not among the sources); it stores the pair. -/
def setLastFetchedBlock (st : TrackerState) (n : Nat) (h : String) : TrackerState :=
  { st with lastFetched := some ⟨n, h⟩ }

/-- Modelled from the spec: BlockTracker.setLastProcessedBlockIfHigher
updates only when the new number strictly exceeds the stored one or when
none is stored. -/
def setLastProcessedBlockIfHigher (st : TrackerState) (n : Nat) (h : String) : TrackerState :=
  match st.lastProcessed with
  | none => { st with lastProcessed := some ⟨n, h⟩ }
  | some lp => if lp.number < n then { st with lastProcessed := some ⟨n, h⟩ } else st

/-- The client-side event-name filter of processEvents (lines 128-130):
applied whenever the events option was given, with no regard to topics. -/
def filterEvents (cfg : EmitterConfig) (events : List EventData) : List EventData :=
  match cfg.eventNames with
  | some names => events.filter (fun e => names.contains e.event)
  | none => events

/-- Net effect of emitEvents (lines 305-324): every event in the list is
emitted as newEvent in order, and setLastProcessedBlockIfHigher is called
with each event's block. (serialListeners / serialProcessing only change
how listeners are awaited, which the trace does not observe.) -/
def emitEventsRun (c : Cycle) (events : List EventData) : Cycle :=
  { c with
    newEvents := c.newEvents ++ events
    tracker := events.foldl
      (fun t e => setLastProcessedBlockIfHigher t e.blockNumber e.blockHash) c.tracker }

/-- The classification step processEvents (lines 121-164). The caller always
passes the effective current block number (the source falls back to
eth.getBlockNumber() when the argument is missing or 0). Buffered rows are
stored through serializeEvent; the model keeps the event itself as the row
content. -/
def processEventsRun (cfg : EmitterConfig) (env : Env) (events : List EventData)
    (n : Nat) (c : Cycle) : Cycle × Option JsError :=
  let evs := filterEvents cfg events
  if evs.isEmpty then (c, none)
  else if cfg.confirmations = 0 then (emitEventsRun c evs, none)
  else
    let threshold : Int := (n : Int) - cfg.confirmations
    let toConfirm := evs.filter (fun e => threshold < (e.blockNumber : Int))
    match env.bulkCreate toConfirm with
    | some .uniqueConstraint => (c, some .duplicatedEvents)
    | some (.other msg) => (c, some (.db msg))
    | none =>
      let c1 := { c with buffer := c.buffer ++ toConfirm }
      let toEmit := evs.filter (fun e => (e.blockNumber : Int) ≤ threshold)
      (emitEventsRun c1 toEmit, none)

/-- Ceiling division on naturals, as Math.ceil of an exact division. -/
def ceilNat (a b : Nat) : Nat := (a + b - 1) / b

/-- The batch count of batchFetchAndProcessEvents (line 219):
`toBlock === fromBlock ? 1 : Math.ceil((toBlock - fromBlock) / (batchSize - 1))`.
For batchSize 1 the source divides by zero, giving Infinity and a
non-terminating loop; the model is only used with batchSize at least 2. -/
def countOfBatches (fromBlock toBlock batchSize : Nat) : Nat :=
  if toBlock = fromBlock then 1 else ceilNat (toBlock - fromBlock) (batchSize - 1)

/-- The shared tail of one batch and of handleReorg: classify the events
through processEvents and, when that succeeded, advance lastFetched to the
given header (lines 251-252 and 301-302). -/
def commitBatch (cfg : EmitterConfig) (env : Env) (currentNumber : Nat)
    (header : BlockRef) (events : List EventData) (c : Cycle) : Cycle × Option JsError :=
  match processEventsRun cfg env events currentNumber c with
  | (c1, some e) => (c1, some e)
  | (c1, none) =>
    ({ c1 with tracker := setLastFetchedBlock c1.tracker header.number header.hash }, none)

/-- One iteration of the batch loop (lines 222-253): compute the closed
batch interval, fetch the header at batchToBlock, fetch the logs, emit the
progress report, classify the events, and advance lastFetched. Both arms of
the source's `batch === 0` conditional compute the same interval, so the
model uses the single formula. -/
def processBatch (cfg : EmitterConfig) (env : Env) (currentNumber : Nat)
    (fromBlock toBlock cnt i : Nat) (c : Cycle) : Cycle × Option JsError :=
  let batchFromBlock := fromBlock + i * cfg.batchSize
  let batchToBlock := min (batchFromBlock + cfg.batchSize - 1) toBlock
  match env.getBlock batchToBlock with
  | .error msg => (c, some (.rpc msg))
  | .ok header =>
    let c1 := { c with fetched := c.fetched ++ [(batchFromBlock, batchToBlock)] }
    match env.getPastLogs batchFromBlock batchToBlock with
    | .error msg => (c1, some (.rpc msg))
    | .ok events =>
      let c2 := { c1 with progress := c1.progress ++ [⟨i + 1, cnt, batchFromBlock, batchToBlock⟩] }
      commitBatch cfg env currentNumber header events c2

/-- The batch loop, one call of `processBatch` per index with a thrown error
aborting the remaining batches. -/
def runBatches (cfg : EmitterConfig) (env : Env) (currentNumber : Nat)
    (fromBlock toBlock cnt : Nat) (idxs : List Nat) (c : Cycle) : Cycle × Option JsError :=
  match idxs with
  | [] => (c, none)
  | i :: rest =>
    match processBatch cfg env currentNumber fromBlock toBlock cnt i c with
    | (c1, none) => runBatches cfg env currentNumber fromBlock toBlock cnt rest c1
    | (c1, some e) => (c1, some e)

/-- batchFetchAndProcessEvents (lines 203-254): argument type check, range
check, batch count and the batch loop. -/
def batchFetchAndProcessEvents (cfg : EmitterConfig) (env : Env)
    (fromArg toArg : BlockArg) (currentNumber : Nat) (c : Cycle) : Cycle × Option JsError :=
  match fromArg, toArg with
  | .num fromBlock, .num toBlock =>
    if toBlock < fromBlock then (c, some .invalidRange)
    else
      let cnt := countOfBatches fromBlock toBlock cfg.batchSize
      runBatches cfg env currentNumber fromBlock toBlock cnt (List.range cnt) c
  | _, _ => (c, some .notNumbers)

/-- processPastEvents (lines 172-193): resolve 'genesis' for the from
argument and 'latest' for the to argument, then batch fetch. A
startingBlock of 'latest' is NOT resolved here and flows into
batchFetchAndProcessEvents as a string. -/
def processPastEventsRun (cfg : EmitterConfig) (env : Env) (st : TrackerState)
    (buffer : List EventData) : Cycle × Option JsError :=
  let c := initialCycle st buffer
  match env.getLatest with
  | .error msg => (c, some (.rpc msg))
  | .ok currentBlock =>
    let fromArg : BlockArg :=
      match cfg.startingBlock with
      | .genesis => .num 0
      | .latest => .str "latest"
      | .num n => .num n
    batchFetchAndProcessEvents cfg env fromArg (.num currentBlock.number) currentBlock.number c

/-- The catch-up part of init (lines 74-82): past events are processed only
when no last fetched block is stored (checked with `=== undefined`). -/
def initRun (cfg : EmitterConfig) (env : Env) (st : TrackerState)
    (buffer : List EventData) : Cycle × Option JsError :=
  match st.lastFetched with
  | none => processPastEventsRun cfg env st buffer
  | some _ => (initialCycle st buffer, none)

/-- Result of the reorg check: the returned boolean (the reorg event is
emitted exactly when it is true) and the payload of an emitted
reorgOutOfRange, if any. -/
structure ReorgCheck where
  value : Bool
  outOfRange : Option Nat
deriving DecidableEq, Repr

/-- isReorg (lines 256-287). The guard `!lastFetchedBlockNumber` is a JS
falsiness test: it holds for an absent cursor and for a stored block number
0 alike; the same applies to the lastProcessedBlockNumber guard. -/
def isReorgRun (env : Env) (st : TrackerState) : Except JsError ReorgCheck :=
  match st.lastFetched with
  | none => .ok ⟨false, none⟩
  | some lastFetched =>
    if lastFetched.number = 0 then .ok ⟨false, none⟩
    else
      match env.getBlock lastFetched.number with
      | .error msg => .error (.rpc msg)
      | .ok actual =>
        if actual.hash = lastFetched.hash then .ok ⟨false, none⟩
        else
          match st.lastProcessed with
          | none => .ok ⟨true, none⟩
          | some lastProcessed =>
            if lastProcessed.number = 0 then .ok ⟨true, none⟩
            else
              match env.getBlock lastProcessed.number with
              | .error msg => .error (.rpc msg)
              | .ok actualProcessed =>
                if actualProcessed.hash = lastProcessed.hash then .ok ⟨true, none⟩
                else .ok ⟨true, some lastProcessed.number⟩

/-- The from block of the reorg refetch (line 293):
`(lastProcessedBlockNumber ? lastProcessedBlockNumber + 1 : false) || this.startingBlock`.
A stored number 0 is falsy and falls back to startingBlock. -/
def reorgFetchFrom (lastProcessedNumber : Option Nat) (startingBlock : StartingBlock) : StartingBlock :=
  match lastProcessedNumber with
  | some n => if n = 0 then startingBlock else .num (n + 1)
  | none => startingBlock

/-- Modelled from the spec: web3 resolves the block tags of a log query
('genesis' to block 0, 'latest' to the current head). -/
def resolveBlockTag (b : StartingBlock) (currentNumber : Nat) : Nat :=
  match b with
  | .genesis => 0
  | .latest => currentNumber
  | .num n => n

/-- Modelled from the spec: the checkDroppedTransactions helper of the
confirmator (confirmator.ts is not among the sources) reports every
buffered row whose transaction hash and log index do not appear among the
refetched events. -/
def droppedRows (buf newEvents : List EventData) : List EventData :=
  buf.filter (fun r =>
    !(newEvents.any (fun e => e.transactionHash == r.transactionHash && e.logIndex == r.logIndex)))

/-- The numeric from block of the reorg refetch, as the chain sees it. -/
def reorgFromNumber (cfg : EmitterConfig) (st : TrackerState) (cur : BlockRef) : Nat :=
  resolveBlockTag (reorgFetchFrom (st.lastProcessed.map (fun b => b.number)) cfg.startingBlock)
    cur.number

/-- The events handleReorg refetches over the reorg range. -/
def reorgRefetched (cfg : EmitterConfig) (logs : Nat → Nat → List EventData)
    (st : TrackerState) (cur : BlockRef) : List EventData :=
  logs (reorgFromNumber cfg st cur) cur.number

/-- handleReorg (lines 289-303). The call
`confirmator!.checkDroppedTransactions` is modelled from the spec
(confirmator.ts is not among the sources): it emits invalidConfirmation for
every buffered row whose transaction hash and log index do not appear among
the refetched events. The JS TypeError from dereferencing an undefined
confirmator is `.confirmatorUndefined`. -/
def handleReorgRun (cfg : EmitterConfig) (env : Env) (currentBlock : BlockRef)
    (c : Cycle) : Cycle × Option JsError :=
  let fromN := resolveBlockTag
    (reorgFetchFrom (c.tracker.lastProcessed.map (fun b => b.number)) cfg.startingBlock)
    currentBlock.number
  let c0 := { c with fetched := c.fetched ++ [(fromN, currentBlock.number)] }
  match env.getPastLogs fromN currentBlock.number with
  | .error msg => (c0, some (.rpc msg))
  | .ok newEvents =>
    match cfg.confirmator with
    | none => (c0, some .confirmatorUndefined)
    | some _ =>
      let dropped := droppedRows c0.buffer newEvents
      let c1 := { c0 with invalidConfirmations := c0.invalidConfirmations ++ dropped }
      let c2 := { c1 with buffer := [] }
      commitBatch cfg env currentBlock.number currentBlock newEvents c2

/-- The forward part of poll (lines 364-376). When no last fetched block is
stored the JS source computes `undefined + 1 = NaN`; NaN passes the type
and range checks of batchFetchAndProcessEvents and `Math.ceil(NaN)` is NaN,
so the loop guard `batch < NaN` runs zero batches: the cycle completes with
no effect, which the model returns directly. -/
def pollForward (cfg : EmitterConfig) (env : Env) (currentBlock : BlockRef)
    (c : Cycle) : Cycle × Option JsError :=
  match c.tracker.lastFetched with
  | none => (c, none)
  | some lastFetched =>
    if lastFetched.number = currentBlock.number then (c, none)
    else
      batchFetchAndProcessEvents cfg env (.num (lastFetched.number + 1))
        (.num currentBlock.number) currentBlock.number c

/-- The body of poll inside its try block (lines 358-376): reorg check (only
when confirmations is truthy, that is nonzero), reorg handling, or forward
fetch. -/
def pollBody (cfg : EmitterConfig) (env : Env) (st : TrackerState)
    (buffer : List EventData) (currentBlock : BlockRef) : Cycle × Option JsError :=
  let c := initialCycle st buffer
  if cfg.confirmations ≠ 0 then
    match isReorgRun env st with
    | .error e => (c, some e)
    | .ok r =>
      let c1 := { c with reorgEmitted := r.value, reorgOutOfRange := r.outOfRange.toList }
      if r.value then handleReorgRun cfg env currentBlock c1
      else pollForward cfg env currentBlock c1
  else pollForward cfg env currentBlock c

/-- poll (lines 354-382): the body runs under the semaphore and every thrown
error is caught and logged ('Error in the processing loop'), never rethrown
and never emitted on the error channel. -/
def poll (cfg : EmitterConfig) (env : Env) (st : TrackerState)
    (buffer : List EventData) (currentBlock : BlockRef) : Cycle :=
  match pollBody cfg env st buffer currentBlock with
  | (c, none) => c
  | (c, some e) => { c with caught := c.caught ++ [e] }

/-- The batch count as the spec words it: ceil((to - from + 1) / batchSize).
Stated only for comparison with `countOfBatches`, which is what the source
computes. -/
def specBatchCount (fromBlock toBlock batchSize : Nat) : Nat :=
  ceilNat (toBlock - fromBlock + 1) batchSize

/-- The closed interval covered by batch `i`, exactly as the loop computes
it: from `fromBlock + i * batchSize` to
`min (fromBlock + i * batchSize + batchSize - 1) toBlock`. -/
def batchInterval (fromBlock toBlock batchSize i : Nat) : Nat × Nat :=
  (fromBlock + i * batchSize,
    min (fromBlock + i * batchSize + batchSize - 1) toBlock)

/-! Concrete inputs used by witnesses and counterexamples. -/

/-- An empty tracker state. -/
def trk0 : TrackerState := { lastFetched := none, lastProcessed := none }

/-- A configuration with two confirmations and a client-side name filter. -/
def cfgConf2 : EmitterConfig :=
  { topics := none
    eventNames := some ["A"]
    confirmations := 2
    batchSize := 120
    startingBlock := .genesis
    serialListeners := false
    serialProcessing := false
    confirmator := some () }

/-- A configuration with both a topics filter and an event-name filter and
no confirmations. -/
def cfgBoth : EmitterConfig :=
  { topics := some ["keccak256:T(uint256)"]
    eventNames := some ["A"]
    confirmations := 0
    batchSize := 120
    startingBlock := .genesis
    serialListeners := false
    serialProcessing := false
    confirmator := none }

/-- An environment whose blocks all hash to "h", with no logs anywhere and
head block 10. -/
def envPlain : Env := mkEnv (fun _ => "h") (fun _ _ => []) ⟨10, "h"⟩

/-- A sample event named A at block 5. -/
def evA5 : EventData :=
  { event := "A", blockNumber := 5, blockHash := "b5", transactionHash := "t5", logIndex := 0 }

/-- A sample event named A at block 10. -/
def evA10 : EventData :=
  { event := "A", blockNumber := 10, blockHash := "b10", transactionHash := "t10", logIndex := 1 }

/-- A sample event named B at block 3. -/
def evB3 : EventData :=
  { event := "B", blockNumber := 3, blockHash := "b3", transactionHash := "t3", logIndex := 0 }

/-- A tracker whose last fetched block is block 0 with hash "0xaa". -/
def trkZero : TrackerState := { lastFetched := some ⟨0, "0xaa"⟩, lastProcessed := none }

/-- An environment in which every block currently hashes to "0xbb". -/
def envBB : Env := mkEnv (fun _ => "0xbb") (fun _ _ => []) ⟨5, "0xbb"⟩

/-- Options with an event-name filter and a batchSize of 0. -/
def optsBatch0 : EventsEmitterOptions :=
  { topics := none
    events := some ["Transfer"]
    batchSize := some 0
    confirmations := none
    startingBlock := none
    confirmator := none
    serialListeners := none
    serialProcessing := none }

/-- Options with only a topics filter. -/
def optsTopicsOnly : EventsEmitterOptions :=
  { topics := some ["T(uint256)"]
    events := none
    batchSize := none
    confirmations := none
    startingBlock := none
    confirmator := none
    serialListeners := none
    serialProcessing := none }

/-- Options with an event-name filter and one confirmation. -/
def optsConf1 : EventsEmitterOptions :=
  { topics := none
    events := some ["A"]
    batchSize := none
    confirmations := some 1
    startingBlock := none
    confirmator := none
    serialListeners := none
    serialProcessing := none }

/-- The emitter configuration that `mkEmitter optsConf1` produces. -/
def cfgC10 : EmitterConfig :=
  { topics := none
    eventNames := some ["A"]
    confirmations := 1
    batchSize := 120
    startingBlock := .genesis
    serialListeners := false
    serialProcessing := false
    confirmator := some () }

/-- A configuration with a topics filter and no confirmations. -/
def cfgNoConf : EmitterConfig :=
  { topics := some ["T"]
    eventNames := none
    confirmations := 0
    batchSize := 120
    startingBlock := .genesis
    serialListeners := false
    serialProcessing := false
    confirmator := none }

/-- An environment whose log fetches all fail with "boom". -/
def envBoom : Env :=
  { getBlock := fun n => .ok ⟨n, "h"⟩
    getLatest := .ok ⟨5, "h"⟩
    getPastLogs := fun _ _ => .error "boom"
    bulkCreate := fun _ => none }

/-- An environment whose header fetches all fail with "down". -/
def envBlockFail : Env :=
  { getBlock := fun _ => .error "down"
    getLatest := .ok ⟨5, "h"⟩
    getPastLogs := fun _ _ => .ok []
    bulkCreate := fun _ => none }

/-- A tracker whose last fetched block is block 1. -/
def trkF1 : TrackerState := { lastFetched := some ⟨1, "h1"⟩, lastProcessed := none }

/-- A tracker whose last fetched block is block 5. -/
def trkF5 : TrackerState := { lastFetched := some ⟨5, "h5"⟩, lastProcessed := none }

/-- A tracker with lastFetched block 9 and lastProcessed block 0. -/
def trkP0 : TrackerState :=
  { lastFetched := some ⟨9, "f9"⟩, lastProcessed := some ⟨0, "p0"⟩ }

/-- An environment whose every range fetch returns the single event evA10,
with head block 10. -/
def env4 : Env := mkEnv (fun _ => "h") (fun _ _ => [evA10]) ⟨10, "c10"⟩

/-- A configuration with batch size 100 (scenario S1 of the spec). -/
def cfgB100 : EmitterConfig :=
  { topics := some ["T"]
    eventNames := none
    confirmations := 0
    batchSize := 100
    startingBlock := .genesis
    serialListeners := false
    serialProcessing := false
    confirmator := none }

/-- A configuration whose startingBlock is the alias 'latest'. -/
def cfgLatest : EmitterConfig :=
  { topics := some ["T"]
    eventNames := none
    confirmations := 0
    batchSize := 120
    startingBlock := .latest
    serialListeners := false
    serialProcessing := false
    confirmator := none }

end Web3Events

namespace Web3Events

/-! Helper lemmas. -/

lemma emitEventsRun_newEvents (c : Cycle) (evs : List EventData) :
    (emitEventsRun c evs).newEvents = c.newEvents ++ evs := rfl

lemma emitEventsRun_buffer (c : Cycle) (evs : List EventData) :
    (emitEventsRun c evs).buffer = c.buffer := rfl

lemma processEventsRun_frame (cfg : EmitterConfig) (env : Env) (events : List EventData)
    (n : Nat) (c : Cycle) :
    (processEventsRun cfg env events n c).1.fetched = c.fetched ∧
    (processEventsRun cfg env events n c).1.progress = c.progress ∧
    (processEventsRun cfg env events n c).1.caught = c.caught ∧
    (processEventsRun cfg env events n c).1.errorChannel = c.errorChannel ∧
    (processEventsRun cfg env events n c).1.invalidConfirmations = c.invalidConfirmations ∧
    (processEventsRun cfg env events n c).2 ≠ some JsError.confirmatorUndefined ∧
    (processEventsRun cfg env events n c).2 ≠ some JsError.invalidRange ∧
    (processEventsRun cfg env events n c).2 ≠ some JsError.notNumbers := by
  by_cases h1 : (filterEvents cfg events).isEmpty
  · simp [processEventsRun, h1]
  · by_cases h2 : cfg.confirmations = 0
    · simp [processEventsRun, h1, h2, emitEventsRun]
    · rcases h3 : env.bulkCreate ((filterEvents cfg events).filter
        (fun e => decide ((n : Int) - cfg.confirmations < (e.blockNumber : Int)))) with _ | d
      · simp [processEventsRun, h1, h2, h3, emitEventsRun]
      · cases d <;> simp [processEventsRun, h1, h2, h3, emitEventsRun]

lemma processEventsRun_benign (cfg : EmitterConfig) (env : Env) (events : List EventData)
    (n : Nat) (c : Cycle) (hbulk : ∀ rows, env.bulkCreate rows = none) :
    (processEventsRun cfg env events n c).2 = none := by
  by_cases h1 : (filterEvents cfg events).isEmpty
  · simp [processEventsRun, h1]
  · by_cases h2 : cfg.confirmations = 0
    · simp [processEventsRun, h1, h2]
    · simp [processEventsRun, h1, h2, hbulk]

lemma processEventsRun_pos (cfg : EmitterConfig) (env : Env) (events : List EventData)
    (n : Nat) (c : Cycle) (hbulk : ∀ rows, env.bulkCreate rows = none)
    (hc : cfg.confirmations ≠ 0) :
    (processEventsRun cfg env events n c).1.newEvents =
      c.newEvents ++ (filterEvents cfg events).filter
        (fun e => decide ((e.blockNumber : Int) ≤ (n : Int) - cfg.confirmations)) ∧
    (processEventsRun cfg env events n c).1.buffer =
      c.buffer ++ (filterEvents cfg events).filter
        (fun e => decide ((n : Int) - cfg.confirmations < (e.blockNumber : Int))) := by
  by_cases h1 : (filterEvents cfg events).isEmpty
  · have h0 : filterEvents cfg events = [] := by simpa using h1
    simp [processEventsRun, h1, h0]
  · simp [processEventsRun, h1, hc, hbulk, emitEventsRun]

lemma processEventsRun_zero (cfg : EmitterConfig) (env : Env) (events : List EventData)
    (n : Nat) (c : Cycle) (hc : cfg.confirmations = 0) :
    (processEventsRun cfg env events n c).1.newEvents = c.newEvents ++ filterEvents cfg events ∧
    (processEventsRun cfg env events n c).1.buffer = c.buffer ∧
    (processEventsRun cfg env events n c).2 = none := by
  by_cases h1 : (filterEvents cfg events).isEmpty
  · have h0 : filterEvents cfg events = [] := by simpa using h1
    simp [processEventsRun, h1, h0]
  · simp [processEventsRun, h1, hc, emitEventsRun]

lemma mkEnv_getBlock (hashAt : Nat → String) (logs : Nat → Nat → List EventData)
    (latest : BlockRef) (n : Nat) :
    (mkEnv hashAt logs latest).getBlock n = .ok ⟨n, hashAt n⟩ := rfl

lemma mkEnv_getLatest (hashAt : Nat → String) (logs : Nat → Nat → List EventData)
    (latest : BlockRef) :
    (mkEnv hashAt logs latest).getLatest = .ok latest := rfl

lemma mkEnv_getPastLogs (hashAt : Nat → String) (logs : Nat → Nat → List EventData)
    (latest : BlockRef) (a b : Nat) :
    (mkEnv hashAt logs latest).getPastLogs a b = .ok (logs a b) := rfl

lemma mkEnv_bulkCreate (hashAt : Nat → String) (logs : Nat → Nat → List EventData)
    (latest : BlockRef) (rows : List EventData) :
    (mkEnv hashAt logs latest).bulkCreate rows = none := rfl

lemma commitBatch_frame (cfg : EmitterConfig) (env : Env) (n : Nat) (header : BlockRef)
    (events : List EventData) (c : Cycle) :
    (commitBatch cfg env n header events c).1.caught = c.caught ∧
    (commitBatch cfg env n header events c).1.errorChannel = c.errorChannel ∧
    (commitBatch cfg env n header events c).1.fetched = c.fetched ∧
    (commitBatch cfg env n header events c).1.progress = c.progress ∧
    (commitBatch cfg env n header events c).2 ≠ some JsError.confirmatorUndefined := by
  unfold commitBatch
  rcases hpe : processEventsRun cfg env events n c with ⟨c1, o⟩
  have hf := processEventsRun_frame cfg env events n c
  rw [hpe] at hf
  rcases o with _ | e
  · exact ⟨hf.2.2.1, hf.2.2.2.1, hf.1, hf.2.1, by simp⟩
  · exact ⟨hf.2.2.1, hf.2.2.2.1, hf.1, hf.2.1, hf.2.2.2.2.2.1⟩

lemma commitBatch_benign (cfg : EmitterConfig) (env : Env) (n : Nat) (header : BlockRef)
    (events : List EventData) (c : Cycle) (hbulk : ∀ rows, env.bulkCreate rows = none) :
    ∃ c1, commitBatch cfg env n header events c = (c1, none) ∧
      c1.fetched = c.fetched ∧ c1.progress = c.progress ∧
      c1.caught = c.caught ∧ c1.errorChannel = c.errorChannel ∧
      c1.invalidConfirmations = c.invalidConfirmations ∧
      c1.tracker.lastFetched = some ⟨header.number, header.hash⟩ ∧
      (cfg.confirmations ≠ 0 →
        c1.buffer = c.buffer ++ (filterEvents cfg events).filter
          (fun e => decide ((n : Int) - cfg.confirmations < (e.blockNumber : Int))) ∧
        c1.newEvents = c.newEvents ++ (filterEvents cfg events).filter
          (fun e => decide ((e.blockNumber : Int) ≤ (n : Int) - cfg.confirmations))) ∧
      (cfg.confirmations = 0 →
        c1.buffer = c.buffer ∧
        c1.newEvents = c.newEvents ++ filterEvents cfg events) := by
  unfold commitBatch
  rcases hpe : processEventsRun cfg env events n c with ⟨c3, o⟩
  have hben := processEventsRun_benign cfg env events n c hbulk
  rw [hpe] at hben
  have ho : o = none := hben
  subst ho
  have hf := processEventsRun_frame cfg env events n c
  rw [hpe] at hf
  refine ⟨_, rfl, hf.1, hf.2.1, hf.2.2.1, hf.2.2.2.1, hf.2.2.2.2.1, rfl, ?_, ?_⟩
  · intro hc
    have hp := processEventsRun_pos cfg env events n c hbulk hc
    rw [hpe] at hp
    exact ⟨hp.2, hp.1⟩
  · intro hc
    have hz := processEventsRun_zero cfg env events n c hc
    rw [hpe] at hz
    exact ⟨hz.2.1, hz.1⟩

lemma processBatch_frame (cfg : EmitterConfig) (env : Env) (cur fromB toB cnt i : Nat)
    (c : Cycle) :
    (processBatch cfg env cur fromB toB cnt i c).1.caught = c.caught ∧
    (processBatch cfg env cur fromB toB cnt i c).1.errorChannel = c.errorChannel ∧
    (processBatch cfg env cur fromB toB cnt i c).2 ≠ some JsError.confirmatorUndefined := by
  simp only [processBatch]
  split
  · simp
  · rename_i header heq1
    split
    · simp
    · rename_i events heq2
      refine ⟨(commitBatch_frame cfg env cur header events _).1.trans rfl,
              (commitBatch_frame cfg env cur header events _).2.1.trans rfl,
              (commitBatch_frame cfg env cur header events _).2.2.2.2⟩

lemma runBatches_frame (cfg : EmitterConfig) (env : Env) (cur fromB toB cnt : Nat) :
    ∀ (idxs : List Nat) (c : Cycle),
      (runBatches cfg env cur fromB toB cnt idxs c).1.caught = c.caught ∧
      (runBatches cfg env cur fromB toB cnt idxs c).1.errorChannel = c.errorChannel ∧
      (runBatches cfg env cur fromB toB cnt idxs c).2 ≠ some JsError.confirmatorUndefined := by
  intro idxs
  induction idxs with
  | nil => intro c; simp [runBatches]
  | cons i rest ih =>
    intro c
    simp only [runBatches]
    rcases hpb : processBatch cfg env cur fromB toB cnt i c with ⟨c1, o⟩
    have hf := processBatch_frame cfg env cur fromB toB cnt i c
    rw [hpb] at hf
    rcases o with _ | e
    · have ihc := ih c1
      exact ⟨ihc.1.trans hf.1, ihc.2.1.trans hf.2.1, ihc.2.2⟩
    · exact hf

lemma batchFetchAndProcessEvents_frame (cfg : EmitterConfig) (env : Env)
    (fromArg toArg : BlockArg) (cur : Nat) (c : Cycle) :
    (batchFetchAndProcessEvents cfg env fromArg toArg cur c).1.caught = c.caught ∧
    (batchFetchAndProcessEvents cfg env fromArg toArg cur c).1.errorChannel = c.errorChannel ∧
    (batchFetchAndProcessEvents cfg env fromArg toArg cur c).2 ≠ some JsError.confirmatorUndefined := by
  rcases fromArg with fromB | s
  · rcases toArg with toB | s2
    · simp only [batchFetchAndProcessEvents]
      split
      · simp
      · exact runBatches_frame cfg env cur fromB toB _ _ c
    · simp [batchFetchAndProcessEvents]
  · rcases toArg with toB | s2 <;> simp [batchFetchAndProcessEvents]

lemma pollForward_frame (cfg : EmitterConfig) (env : Env) (cur : BlockRef) (c : Cycle) :
    (pollForward cfg env cur c).1.caught = c.caught ∧
    (pollForward cfg env cur c).1.errorChannel = c.errorChannel ∧
    (pollForward cfg env cur c).2 ≠ some JsError.confirmatorUndefined := by
  rcases hl : c.tracker.lastFetched with _ | lf
  · simp [pollForward, hl]
  · by_cases hlf : lf.number = cur.number
    · simp [pollForward, hl, hlf]
    · simp only [pollForward, hl, hlf, if_false]
      exact batchFetchAndProcessEvents_frame cfg env _ _ _ c

lemma handleReorgRun_frame (cfg : EmitterConfig) (env : Env) (cur : BlockRef) (c : Cycle) :
    (handleReorgRun cfg env cur c).1.caught = c.caught ∧
    (handleReorgRun cfg env cur c).1.errorChannel = c.errorChannel := by
  simp only [handleReorgRun]
  split
  · simp
  · rename_i newEvents heq
    split
    · simp
    · refine ⟨(commitBatch_frame cfg env cur.number cur newEvents _).1.trans rfl,
              (commitBatch_frame cfg env cur.number cur newEvents _).2.1.trans rfl⟩

lemma handleReorgRun_ne_confU (cfg : EmitterConfig) (env : Env) (cur : BlockRef) (c : Cycle)
    (h : cfg.confirmator = some ()) :
    (handleReorgRun cfg env cur c).2 ≠ some JsError.confirmatorUndefined := by
  simp only [handleReorgRun, h]
  split
  · simp
  · rename_i newEvents heq
    exact (commitBatch_frame cfg env cur.number cur newEvents _).2.2.2.2

lemma isReorgRun_shape (env : Env) (st : TrackerState) :
    (∃ r, isReorgRun env st = .ok r) ∨ (∃ m, isReorgRun env st = .error (.rpc m)) := by
  unfold isReorgRun
  split
  · exact Or.inl ⟨_, rfl⟩
  · split
    · exact Or.inl ⟨_, rfl⟩
    · split
      · exact Or.inr ⟨_, rfl⟩
      · split
        · exact Or.inl ⟨_, rfl⟩
        · split
          · exact Or.inl ⟨_, rfl⟩
          · split
            · exact Or.inl ⟨_, rfl⟩
            · split
              · exact Or.inr ⟨_, rfl⟩
              · split
                · exact Or.inl ⟨_, rfl⟩
                · exact Or.inl ⟨_, rfl⟩

lemma pollForward_ne_confU (cfg : EmitterConfig) (env : Env) (cur : BlockRef) (c : Cycle) :
    (pollForward cfg env cur c).2 ≠ some JsError.confirmatorUndefined :=
  (pollForward_frame cfg env cur c).2.2

lemma pollBody_frame (cfg : EmitterConfig) (env : Env) (st : TrackerState)
    (buf : List EventData) (cur : BlockRef) :
    (pollBody cfg env st buf cur).1.caught = [] ∧
    (pollBody cfg env st buf cur).1.errorChannel = [] := by
  unfold pollBody
  split
  · split
    · simp [initialCycle]
    · split
      · refine ⟨(handleReorgRun_frame cfg env cur _).1.trans rfl,
                (handleReorgRun_frame cfg env cur _).2.trans rfl⟩
      · refine ⟨(pollForward_frame cfg env cur _).1.trans rfl,
                (pollForward_frame cfg env cur _).2.1.trans rfl⟩
  · refine ⟨(pollForward_frame cfg env cur _).1.trans rfl,
            (pollForward_frame cfg env cur _).2.1.trans rfl⟩

lemma pollBody_ne_confU (cfg : EmitterConfig) (env : Env) (st : TrackerState)
    (buf : List EventData) (cur : BlockRef)
    (hcf : cfg.confirmations ≠ 0 → cfg.confirmator = some ()) :
    (pollBody cfg env st buf cur).2 ≠ some JsError.confirmatorUndefined := by
  unfold pollBody
  split
  · rename_i hguard
    split
    · rename_i e heq
      rcases isReorgRun_shape env st with ⟨r, hr⟩ | ⟨m, hr⟩
      · rw [hr] at heq
        cases heq
      · rw [hr] at heq
        injection heq with h1
        rw [← h1]
        simp
    · split
      · exact handleReorgRun_ne_confU cfg env cur _ (hcf hguard)
      · exact pollForward_ne_confU cfg env cur _
  · exact pollForward_ne_confU cfg env cur _

lemma mkEmitter_fields (opts : EventsEmitterOptions) (cfg : EmitterConfig)
    (hok : mkEmitter opts = .ok cfg) :
    cfg.confirmator = (if 0 < cfg.confirmations then some () else none) ∧
    cfg.confirmations = opts.confirmations.getD 0 := by
  by_cases hb : (hashTopics opts.topics).isNone && opts.events.isNone
  · rw [mkEmitter] at hok
    simp only [hb, if_true] at hok
    cases hok
  · rw [mkEmitter] at hok
    simp only [hb, if_false] at hok
    cases hok
    exact ⟨rfl, rfl⟩

lemma processBatch_benign (cfg : EmitterConfig) (hashAt : Nat → String)
    (logs : Nat → Nat → List EventData) (latest : BlockRef) (cur fromB toB cnt i : Nat)
    (c : Cycle) :
    ∃ c1, processBatch cfg (mkEnv hashAt logs latest) cur fromB toB cnt i c = (c1, none) ∧
      c1.fetched = c.fetched ++ [batchInterval fromB toB cfg.batchSize i] ∧
      c1.progress = c.progress ++ [⟨i + 1, cnt, (batchInterval fromB toB cfg.batchSize i).1,
        (batchInterval fromB toB cfg.batchSize i).2⟩] ∧
      c1.caught = c.caught ∧ c1.errorChannel = c.errorChannel := by
  obtain ⟨c1, hcb, hfetch, hprog, hcaught, herr, hinv, htrk, hpos, hzero⟩ :=
    commitBatch_benign cfg (mkEnv hashAt logs latest) cur
      ⟨min (fromB + i * cfg.batchSize + cfg.batchSize - 1) toB,
        hashAt (min (fromB + i * cfg.batchSize + cfg.batchSize - 1) toB)⟩
      (logs (fromB + i * cfg.batchSize) (min (fromB + i * cfg.batchSize + cfg.batchSize - 1) toB))
      { c with
          fetched := c.fetched ++ [(fromB + i * cfg.batchSize,
            min (fromB + i * cfg.batchSize + cfg.batchSize - 1) toB)]
          progress := c.progress ++ [⟨i + 1, cnt, fromB + i * cfg.batchSize,
            min (fromB + i * cfg.batchSize + cfg.batchSize - 1) toB⟩] }
      (fun _ => rfl)
  refine ⟨c1, ?_, ?_, ?_, hcaught, herr⟩
  · simp only [processBatch, mkEnv_getBlock, mkEnv_getPastLogs]
    exact hcb
  · exact hfetch
  · exact hprog

lemma runBatches_benign (cfg : EmitterConfig) (hashAt : Nat → String)
    (logs : Nat → Nat → List EventData) (latest : BlockRef) (cur fromB toB cnt : Nat) :
    ∀ (idxs : List Nat) (c : Cycle),
      ∃ c1, runBatches cfg (mkEnv hashAt logs latest) cur fromB toB cnt idxs c = (c1, none) ∧
        c1.fetched = c.fetched ++ idxs.map (batchInterval fromB toB cfg.batchSize) ∧
        c1.progress = c.progress ++ idxs.map (fun i =>
          ⟨i + 1, cnt, (batchInterval fromB toB cfg.batchSize i).1,
            (batchInterval fromB toB cfg.batchSize i).2⟩) ∧
        c1.caught = c.caught ∧ c1.errorChannel = c.errorChannel := by
  intro idxs
  induction idxs with
  | nil => exact fun c => ⟨c, rfl, by simp, by simp, rfl, rfl⟩
  | cons i rest ih =>
    intro c
    obtain ⟨cmid, hpb, hf, hp, hcaught, herr⟩ :=
      processBatch_benign cfg hashAt logs latest cur fromB toB cnt i c
    obtain ⟨cfin, hrb, hf2, hp2, hcaught2, herr2⟩ := ih cmid
    refine ⟨cfin, ?_, ?_, ?_, hcaught2.trans hcaught, herr2.trans herr⟩
    · simp only [runBatches, hpb]
      exact hrb
    · rw [hf2, hf]
      simp
    · rw [hp2, hp]
      simp

lemma batchFetchAndProcessEvents_benign (cfg : EmitterConfig) (hashAt : Nat → String)
    (logs : Nat → Nat → List EventData) (latest : BlockRef) (cur fromB toB : Nat)
    (c : Cycle) (hle : fromB ≤ toB) :
    ∃ c1, batchFetchAndProcessEvents cfg (mkEnv hashAt logs latest)
        (.num fromB) (.num toB) cur c = (c1, none) ∧
      c1.fetched = c.fetched ++ (List.range (countOfBatches fromB toB cfg.batchSize)).map
        (batchInterval fromB toB cfg.batchSize) ∧
      c1.progress = c.progress ++ (List.range (countOfBatches fromB toB cfg.batchSize)).map
        (fun i => ⟨i + 1, countOfBatches fromB toB cfg.batchSize,
          (batchInterval fromB toB cfg.batchSize i).1,
          (batchInterval fromB toB cfg.batchSize i).2⟩) ∧
      c1.caught = c.caught ∧ c1.errorChannel = c.errorChannel := by
  obtain ⟨c1, hrb, hf, hp, hcaught, herr⟩ :=
    runBatches_benign cfg hashAt logs latest cur fromB toB
      (countOfBatches fromB toB cfg.batchSize)
      (List.range (countOfBatches fromB toB cfg.batchSize)) c
  refine ⟨c1, ?_, hf, hp, hcaught, herr⟩
  simp only [batchFetchAndProcessEvents]
  rw [if_neg (by omega)]
  exact hrb

lemma countOfBatches_pos (fromB toB bs : Nat) (hbs : 2 ≤ bs) (hle : fromB ≤ toB) :
    0 < countOfBatches fromB toB bs := by
  unfold countOfBatches ceilNat
  split
  · omega
  · rename_i hne
    exact Nat.div_pos (by omega) (by omega)

lemma range_map_head {α : Type} (f : Nat → α) (cnt : Nat) (h : 0 < cnt) :
    ((List.range cnt).map f).head? = some (f 0) := by
  obtain ⟨m, rfl⟩ : ∃ m, cnt = m + 1 := ⟨cnt - 1, by omega⟩
  rw [List.range_succ_eq_map]
  simp

lemma batch_partition (fromB toB bs : Nat) (hbs : 2 ≤ bs) (hle : fromB ≤ toB)
    (n : Nat) (h1 : fromB ≤ n) (h2 : n ≤ toB) :
    ∃! i, i < countOfBatches fromB toB bs ∧
      (batchInterval fromB toB bs i).1 ≤ n ∧ n ≤ (batchInterval fromB toB bs i).2 := by
  have hbs0 : 0 < bs := by omega
  have hdvm := Nat.div_add_mod' (n - fromB) bs
  have hmod : (n - fromB) % bs < bs := Nat.mod_lt _ hbs0
  refine ⟨(n - fromB) / bs, ⟨?_, ?_, ?_⟩, ?_⟩
  · by_cases he : toB = fromB
    · have hn : n = fromB := by omega
      simp [countOfBatches, he, hn]
    · have hD : 1 ≤ toB - fromB := by omega
      have hdb : (n - fromB) / bs ≤ (toB - fromB) / bs :=
        Nat.div_le_div_right (by omega)
      have hqmul : (toB - fromB) / bs * bs ≤ toB - fromB := Nat.div_mul_le_self _ _
      have hkey : (toB - fromB) / bs * (bs - 1) ≤ toB - fromB - 1 := by
        by_cases hsmall : toB - fromB < bs
        · have : (toB - fromB) / bs = 0 := Nat.div_eq_of_lt hsmall
          simp [this]
        · have hq1 : 1 ≤ (toB - fromB) / bs := by
            rw [Nat.le_div_iff_mul_le hbs0]
            omega
          have hms : (toB - fromB) / bs * (bs - 1) =
              (toB - fromB) / bs * bs - (toB - fromB) / bs := by
            rw [Nat.mul_sub]
            omega
          omega
      have hkey2 : (n - fromB) / bs * (bs - 1) ≤ toB - fromB - 1 :=
        le_trans (Nat.mul_le_mul_right _ hdb) hkey
      have hstep : ((n - fromB) / bs + 1) * (bs - 1) ≤ toB - fromB + (bs - 1) - 1 := by
        have : ((n - fromB) / bs + 1) * (bs - 1) =
            (n - fromB) / bs * (bs - 1) + (bs - 1) := by ring
        omega
      have hfin : (n - fromB) / bs + 1 ≤ (toB - fromB + (bs - 1) - 1) / (bs - 1) :=
        (Nat.le_div_iff_mul_le (by omega)).mpr hstep
      simp only [countOfBatches, ceilNat, he, if_false]
      omega
  · simp only [batchInterval]
    have := Nat.div_mul_le_self (n - fromB) bs
    omega
  · simp only [batchInterval]
    refine le_min (by omega) h2
  · rintro j ⟨hj1, hj2, hj3⟩
    simp only [batchInterval] at hj2 hj3
    have hj3' : n ≤ fromB + j * bs + bs - 1 := le_trans hj3 (min_le_left _ _)
    have hub : (n - fromB) / bs < j + 1 := by
      rw [Nat.div_lt_iff_lt_mul hbs0]
      have : (j + 1) * bs = j * bs + bs := by ring
      omega
    have hlb : j ≤ (n - fromB) / bs := by
      rw [Nat.le_div_iff_mul_le hbs0]
      omega
    omega

/-- C2: for a call to processEvents with effective current block number `n`
and confirmations `c > 0`, an event of the filtered input is emitted as
newEvent exactly when its block number is at most `n - c`; every filtered
event above that threshold is persisted to the confirmation buffer and not
emitted; and with `c = 0` every filtered event is emitted and none is
buffered. -/
theorem C2_processEvents_classification (cfg : EmitterConfig) (env : Env)
    (events : List EventData) (n : Nat) (c : Cycle)
    (hbulk : ∀ rows, env.bulkCreate rows = none) :
    (0 < cfg.confirmations →
      (processEventsRun cfg env events n c).1.newEvents =
        c.newEvents ++ (filterEvents cfg events).filter
          (fun e => decide ((e.blockNumber : Int) ≤ (n : Int) - cfg.confirmations)) ∧
      (processEventsRun cfg env events n c).1.buffer =
        c.buffer ++ (filterEvents cfg events).filter
          (fun e => decide ((n : Int) - cfg.confirmations < (e.blockNumber : Int))) ∧
      (∀ e, e ∈ (processEventsRun cfg env events n c).1.newEvents ↔
        e ∈ c.newEvents ∨
          e ∈ filterEvents cfg events ∧ (e.blockNumber : Int) ≤ (n : Int) - cfg.confirmations)) ∧
    (cfg.confirmations = 0 →
      (processEventsRun cfg env events n c).1.newEvents = c.newEvents ++ filterEvents cfg events ∧
      (processEventsRun cfg env events n c).1.buffer = c.buffer) ∧
    (processEventsRun cfg env events n c).2 = none := by
  refine ⟨fun hc => ?_, fun hc => ?_, processEventsRun_benign cfg env events n c hbulk⟩
  · obtain ⟨h1, h2⟩ := processEventsRun_pos cfg env events n c hbulk (by omega)
    refine ⟨h1, h2, fun e => ?_⟩
    rw [h1]
    simp [List.mem_filter]
  · obtain ⟨h1, h2, _⟩ := processEventsRun_zero cfg env events n c hc
    exact ⟨h1, h2⟩

/-- Witness for C2 at a concrete input: confirmations 2, head 10, and the
events evA5 (block 5, emitted), evA10 (block 10, buffered) and evB3
(filtered out by name). -/
theorem C2_processEvents_classification_witness :
    (processEventsRun cfgConf2 envPlain [evA5, evA10, evB3] 10 (initialCycle trk0 [])).1.newEvents =
      [] ++ (filterEvents cfgConf2 [evA5, evA10, evB3]).filter
        (fun e => decide ((e.blockNumber : Int) ≤ (10 : Int) - cfgConf2.confirmations)) :=
  ((C2_processEvents_classification cfgConf2 envPlain [evA5, evA10, evB3] 10
    (initialCycle trk0 []) (fun _ => rfl)).1 (by decide)).1

/-- C5 amended: the client-side event-name filter of processEvents is
applied exactly when the events option is set, regardless of whether topics
is also set (topics only changes which logs the log source returns); with
events unset every log passes through unchanged, and with events set
exactly the logs whose name is in the list are kept. -/
theorem C5_client_filter (cfg : EmitterConfig) (t : Option (List String))
    (env : Env) (events : List EventData) (n : Nat) (c : Cycle) :
    processEventsRun { cfg with topics := t } env events n c =
      processEventsRun cfg env events n c ∧
    (cfg.eventNames = none → filterEvents cfg events = events) ∧
    (∀ names, cfg.eventNames = some names →
      ∀ e, e ∈ filterEvents cfg events ↔ e ∈ events ∧ names.contains e.event = true) := by
  refine ⟨rfl, fun h => by simp [filterEvents, h], fun names h e => ?_⟩
  simp [filterEvents, h, List.mem_filter]

/-- Counterexample to C5 as stated: with both topics and events configured
and confirmations 0, the fetched log evB3 (name B, not in the events list)
is dropped by processEvents instead of being passed through to
classification, so no newEvent is emitted for it. -/
theorem C5_counterexample :
    cfgBoth.topics.isSome = true ∧ cfgBoth.confirmations = 0 ∧
    (processEventsRun cfgBoth envPlain [evB3] 5 (initialCycle trk0 [])).1.newEvents = [] ∧
    (processEventsRun cfgBoth envPlain [evB3] 5 (initialCycle trk0 [])).2 = none := by
  refine ⟨rfl, rfl, ?_, ?_⟩ <;> rfl

/-- Witness for C5 at a concrete input: with the name filter ["A"], evA5 is
kept from a mixed batch exactly because its name is in the list. -/
theorem C5_client_filter_witness :
    evA5 ∈ filterEvents cfgBoth [evA5, evB3] ↔
      evA5 ∈ [evA5, evB3] ∧ (["A"].contains evA5.event) = true :=
  (C5_client_filter cfgBoth none envPlain [evA5, evB3] 5
    (initialCycle trk0 [])).2.2 ["A"] rfl evA5

/-- C3 amended: against a chain whose current hash at height `k` is
`hashAt k`, isReorg never throws and returns true exactly when a last
fetched block with a NONZERO number is stored whose stored hash differs
from the chain's current hash at that number (a stored number 0 is treated
like an absent cursor by the JS falsiness guard); reorgOutOfRange is
emitted with payload `m` exactly when additionally a last processed block
with nonzero number `m` is stored whose hash differs from the chain's
current hash there. -/
theorem C3_isReorg (hashAt : Nat → String) (logs : Nat → Nat → List EventData)
    (latest : BlockRef) (st : TrackerState) :
    ∃ r, isReorgRun (mkEnv hashAt logs latest) st = .ok r ∧
      (r.value = true ↔
        ∃ lf, st.lastFetched = some lf ∧ lf.number ≠ 0 ∧ hashAt lf.number ≠ lf.hash) ∧
      (∀ m, r.outOfRange = some m ↔
        r.value = true ∧ ∃ lp, st.lastProcessed = some lp ∧ lp.number ≠ 0 ∧
          hashAt lp.number ≠ lp.hash ∧ m = lp.number) := by
  rcases hst : st.lastFetched with _ | lf
  · refine ⟨⟨false, none⟩, by simp [isReorgRun, hst], ?_, ?_⟩
    · refine iff_of_false (by simp) ?_
      rintro ⟨lf', hlf', -, -⟩
      exact Option.noConfusion hlf'
    · intro m
      refine iff_of_false (by simp) ?_
      rintro ⟨hval, -⟩
      simp at hval
  · by_cases h0 : lf.number = 0
    · refine ⟨⟨false, none⟩, by simp [isReorgRun, hst, h0], ?_, ?_⟩
      · refine iff_of_false (by simp) ?_
        rintro ⟨lf', hlf', hne, -⟩
        cases hlf'
        exact hne h0
      · intro m
        refine iff_of_false (by simp) ?_
        rintro ⟨hval, -⟩
        simp at hval
    · by_cases hh : hashAt lf.number = lf.hash
      · refine ⟨⟨false, none⟩, by simp [isReorgRun, mkEnv, hst, h0, hh], ?_, ?_⟩
        · refine iff_of_false (by simp) ?_
          rintro ⟨lf', hlf', -, hneq⟩
          cases hlf'
          exact hneq hh
        · intro m
          refine iff_of_false (by simp) ?_
          rintro ⟨hval, -⟩
          simp at hval
      · have hv : ∃ lf', some lf = some lf' ∧ lf'.number ≠ 0 ∧
            hashAt lf'.number ≠ lf'.hash := ⟨lf, rfl, h0, hh⟩
        rcases hlp : st.lastProcessed with _ | lp
        · refine ⟨⟨true, none⟩, by simp [isReorgRun, mkEnv, hst, h0, hh, hlp],
            iff_of_true rfl hv, ?_⟩
          intro m
          refine iff_of_false (by simp) ?_
          rintro ⟨-, lp', hlp', -, -, -⟩
          exact Option.noConfusion hlp'
        · by_cases hlp0 : lp.number = 0
          · refine ⟨⟨true, none⟩, by simp [isReorgRun, mkEnv, hst, h0, hh, hlp, hlp0],
              iff_of_true rfl hv, ?_⟩
            intro m
            refine iff_of_false (by simp) ?_
            rintro ⟨-, lp', hlp', hne, -, -⟩
            cases hlp'
            exact hne hlp0
          · by_cases hph : hashAt lp.number = lp.hash
            · refine ⟨⟨true, none⟩,
                by simp [isReorgRun, mkEnv, hst, h0, hh, hlp, hlp0, hph],
                iff_of_true rfl hv, ?_⟩
              intro m
              refine iff_of_false (by simp) ?_
              rintro ⟨-, lp', hlp', -, hneq, -⟩
              cases hlp'
              exact hneq hph
            · refine ⟨⟨true, some lp.number⟩,
                by simp [isReorgRun, mkEnv, hst, h0, hh, hlp, hlp0, hph], iff_of_true rfl hv, ?_⟩
              intro m
              constructor
              · intro h
                exact ⟨rfl, lp, rfl, hlp0, hph, (Option.some.inj h).symm⟩
              · rintro ⟨-, lp', hlp', -, -, hm⟩
                cases hlp'
                rw [hm]

/-- Counterexample to C3 as stated: the chain's current hash at height 0 is
"0xbb" while the stored last fetched block is (0, "0xaa") — a stored block
whose hash differs from the chain's — yet isReorg returns false and emits
nothing, because the JS guard `!lastFetchedBlockNumber` treats the stored
number 0 as absent. -/
theorem C3_counterexample :
    isReorgRun envBB trkZero = .ok ⟨false, none⟩ ∧
    trkZero.lastFetched = some ⟨0, "0xaa"⟩ ∧
    ("0xbb" : String) ≠ "0xaa" := by
  refine ⟨rfl, rfl, by decide⟩

/-- C9 amended: construction fails exactly when both the topics and the
events options are missing (the thrown error is a plain Error with the
message about topics/events); neither startingBlock nor batchSize is
validated, so any configuration with at least one of topics/events
constructs successfully. -/
theorem C9_construction (opts : EventsEmitterOptions) :
    (mkEmitter opts = .error .missingTopicsOrEvents ↔
      opts.topics = none ∧ opts.events = none) ∧
    ((opts.topics ≠ none ∨ opts.events ≠ none) → (mkEmitter opts).isOk = true) := by
  rcases ht : opts.topics with _ | ts <;> rcases he : opts.events with _ | es <;>
    simp [mkEmitter, hashTopics, ht, he, Except.isOk, Except.toBool]

/-- Counterexample to C9 as stated: a configuration with a non-positive
batchSize (0) constructs successfully instead of failing. -/
theorem C9_counterexample :
    (mkEmitter optsBatch0).isOk = true ∧ optsBatch0.batchSize = some 0 := ⟨rfl, rfl⟩

/-- Witness for C9 at a concrete input: options carrying only a topics
filter construct successfully. -/
theorem C9_construction_witness : (mkEmitter optsTopicsOnly).isOk = true :=
  (C9_construction optsTopicsOnly).2 (Or.inl (by decide))

/-- C6 amended: poll itself never throws (the model's poll is total on
every environment, including failing ones); the cycle never emits on the
error channel; a failure of the body (LogSource, storage or
duplicate-insert error) aborts the cycle and is caught and logged exactly
once — it is NOT delivered as an error-channel payload. -/
theorem C6_poll_error_handling (cfg : EmitterConfig) (env : Env) (st : TrackerState)
    (buf : List EventData) (cur : BlockRef) :
    (poll cfg env st buf cur).errorChannel = [] ∧
    (∀ e, (pollBody cfg env st buf cur).2 = some e →
      (poll cfg env st buf cur).caught = [e]) := by
  have hfr := pollBody_frame cfg env st buf cur
  rcases hpb : pollBody cfg env st buf cur with ⟨c1, o⟩
  rw [hpb] at hfr
  have hc1c : c1.caught = [] := hfr.1
  have hc1e : c1.errorChannel = [] := hfr.2
  rcases o with _ | e0
  · exact ⟨by simp only [poll, hpb]; exact hc1e, fun e h => by simp at h⟩
  · refine ⟨by simp only [poll, hpb]; simpa using hc1e, fun e h => ?_⟩
    have he : e0 = e := Option.some.inj h
    simp only [poll, hpb]
    simp [hc1c, he]

/-- Counterexample to C6 as stated: a LogSource failure ("boom") during a
poll cycle is caught and logged, while the error channel receives nothing —
the failure is not delivered as an error-channel payload. -/
theorem C6_counterexample :
    (poll cfgNoConf envBoom trkF1 [] ⟨5, "h"⟩).errorChannel = [] ∧
    (poll cfgNoConf envBoom trkF1 [] ⟨5, "h"⟩).caught = [.rpc "boom"] := ⟨rfl, rfl⟩

/-- Witness for C6 at a concrete input: a failing header fetch is caught and
logged as the cycle's single logged error. -/
theorem C6_poll_error_handling_witness :
    (poll cfgNoConf envBlockFail trkF1 [] ⟨5, "h"⟩).caught = [.rpc "down"] :=
  (C6_poll_error_handling cfgNoConf envBlockFail trkF1 [] ⟨5, "h"⟩).2 (.rpc "down") rfl

/-- C7 amended: in a forward poll cycle (no reorg handling) whose computed
from block `lastFetched + 1` exceeds the to block `currentBlock.number`,
no batch is yielded, no event is emitted, nothing is fetched and no error
propagates to the caller; when from = to + 1 (head unchanged) the cycle is
a clean no-op, but when from > to + 1 the range check of
batchFetchAndProcessEvents raises an internal error which poll catches and
logs. -/
theorem C7_from_exceeds_to (cfg : EmitterConfig) (env : Env) (st : TrackerState)
    (buf : List EventData) (cur : BlockRef) (lf : BlockRef)
    (hres : cfg.confirmations = 0 ∨ isReorgRun env st = .ok ⟨false, none⟩)
    (hlf : st.lastFetched = some lf) (hge : cur.number ≤ lf.number) :
    (poll cfg env st buf cur).progress = [] ∧
    (poll cfg env st buf cur).newEvents = [] ∧
    (poll cfg env st buf cur).fetched = [] ∧
    (lf.number = cur.number → poll cfg env st buf cur = initialCycle st buf) ∧
    (cur.number < lf.number →
      (pollBody cfg env st buf cur).2 = some JsError.invalidRange ∧
      (poll cfg env st buf cur).caught = [JsError.invalidRange]) := by
  have hb : pollBody cfg env st buf cur = pollForward cfg env cur (initialCycle st buf) := by
    rcases hres with h0 | hrg
    · simp [pollBody, h0]
    · by_cases h0 : cfg.confirmations = 0
      · simp [pollBody, h0]
      · simp [pollBody, h0, hrg, initialCycle]
  by_cases heq : lf.number = cur.number
  · have hpf : pollForward cfg env cur (initialCycle st buf) = (initialCycle st buf, none) := by
      simp [pollForward, initialCycle, hlf, heq]
    have hpoll : poll cfg env st buf cur = initialCycle st buf := by
      simp [poll, hb, hpf]
    rw [hpoll]
    exact ⟨rfl, rfl, rfl, fun _ => rfl, fun hlt => absurd heq (by omega)⟩
  · have hpf : pollForward cfg env cur (initialCycle st buf) =
        (initialCycle st buf, some JsError.invalidRange) := by
      simp only [pollForward, initialCycle, hlf]
      rw [if_neg heq]
      simp only [batchFetchAndProcessEvents]
      rw [if_pos (by omega)]
    have hpoll : poll cfg env st buf cur =
        { initialCycle st buf with caught := [JsError.invalidRange] } := by
      unfold poll
      rw [hb, hpf]
      simp [initialCycle]
    rw [hpoll]
    exact ⟨rfl, rfl, rfl, fun hc => absurd hc heq,
      fun _ => ⟨by rw [hb, hpf], rfl⟩⟩

/-- Counterexample to C7 as stated: with lastFetched at block 5 and the head
at block 3, the computed from block 6 exceeds the to block 3 and the cycle
raises the internal range-check error ('fromBlock has to be smaller then
toBlock!'), which poll catches and logs — the cycle does not return without
raising an error. -/
theorem C7_counterexample :
    (pollBody cfgNoConf envPlain trkF5 [] ⟨3, "h3"⟩).2 = some JsError.invalidRange ∧
    (poll cfgNoConf envPlain trkF5 [] ⟨3, "h3"⟩).caught = [JsError.invalidRange] := ⟨rfl, rfl⟩

/-- Witness for C7 at a concrete input: the same cycle yields no batch. -/
theorem C7_from_exceeds_to_witness :
    (poll cfgNoConf envPlain trkF5 [] ⟨3, "h3"⟩).progress = [] :=
  (C7_from_exceeds_to cfgNoConf envPlain trkF5 [] ⟨3, "h3"⟩ ⟨5, "h5"⟩
    (Or.inl rfl) rfl (by decide)).1

/-- C10: for every emitter built by the constructor, on the spec's
configuration domain (non-negative confirmations): a confirmator is
constructed whenever confirmations > 0, the reorg-remediation path of poll
is guarded by truthy confirmations, and therefore no poll cycle can fail
with (or log) the TypeError of dereferencing an undefined confirmator. -/
theorem C10_confirmator_safe (opts : EventsEmitterOptions) (cfg : EmitterConfig)
    (env : Env) (st : TrackerState) (buf : List EventData) (cur : BlockRef)
    (hok : mkEmitter opts = .ok cfg) (hnn : 0 ≤ cfg.confirmations) :
    (0 < cfg.confirmations → cfg.confirmator = some ()) ∧
    (pollBody cfg env st buf cur).2 ≠ some JsError.confirmatorUndefined ∧
    JsError.confirmatorUndefined ∉ (poll cfg env st buf cur).caught := by
  have h1 := (mkEmitter_fields opts cfg hok).1
  have hcfm : cfg.confirmations ≠ 0 → cfg.confirmator = some () := by
    intro hne
    rw [h1, if_pos (by omega)]
  refine ⟨fun hpos => by rw [h1, if_pos hpos],
    pollBody_ne_confU cfg env st buf cur hcfm, ?_⟩
  have hfr := pollBody_frame cfg env st buf cur
  have hne := pollBody_ne_confU cfg env st buf cur hcfm
  rcases hpb : pollBody cfg env st buf cur with ⟨c1, o⟩
  rw [hpb] at hfr hne
  have hc1c : c1.caught = [] := hfr.1
  rcases o with _ | e
  · simp only [poll, hpb]
    simp [hc1c]
  · simp only [poll, hpb]
    simp [hc1c]
    intro hcontra
    exact hne (by rw [hcontra])

/-- Witness for C10 at a concrete input: the emitter built from optsConf1
never logs the missing-confirmator TypeError in a poll cycle. -/
theorem C10_confirmator_safe_witness :
    JsError.confirmatorUndefined ∉ (poll cfgC10 envBB trkZero [] ⟨5, "0xbb"⟩).caught :=
  (C10_confirmator_safe optsConf1 cfgC10 envBB trkZero [] ⟨5, "0xbb"⟩ rfl (by decide)).2.2

/-- C4 amended: handleReorg refetches exactly the closed range from
lastProcessed.number + 1 (when a last-processed block with NONZERO number
is stored; a stored number 0 is falsy and falls back to startingBlock, as
does an absent cursor) to currentBlock.number; it reports as
invalidConfirmation exactly the previously buffered rows whose (tx, log
index) is absent from the refetched set, deletes ALL previously buffered
rows, reclassifies the refetched events (so rows for still-unconfirmed
refetched events are in the buffer afterwards), and sets lastFetched to
(currentBlock.number, currentBlock.hash). -/
theorem C4_handleReorg (cfg : EmitterConfig) (hashAt : Nat → String)
    (logs : Nat → Nat → List EventData) (latest : BlockRef)
    (st : TrackerState) (buf : List EventData) (cur : BlockRef)
    (hcf : cfg.confirmator = some ()) (hc : 0 < cfg.confirmations) :
    ∃ c, handleReorgRun cfg (mkEnv hashAt logs latest) cur (initialCycle st buf) = (c, none) ∧
      c.fetched = [(reorgFromNumber cfg st cur, cur.number)] ∧
      (∀ lp, st.lastProcessed = some lp → lp.number ≠ 0 →
        reorgFromNumber cfg st cur = lp.number + 1) ∧
      (st.lastProcessed = none →
        reorgFromNumber cfg st cur = resolveBlockTag cfg.startingBlock cur.number) ∧
      c.buffer = (filterEvents cfg (reorgRefetched cfg logs st cur)).filter
        (fun e => decide ((cur.number : Int) - cfg.confirmations < (e.blockNumber : Int))) ∧
      c.newEvents = (filterEvents cfg (reorgRefetched cfg logs st cur)).filter
        (fun e => decide ((e.blockNumber : Int) ≤ (cur.number : Int) - cfg.confirmations)) ∧
      c.invalidConfirmations = droppedRows buf (reorgRefetched cfg logs st cur) ∧
      c.tracker.lastFetched = some ⟨cur.number, cur.hash⟩ := by
  obtain ⟨c1, hcb, hfetch, hprog, hcaught, herr, hinv, htrk, hpos, hzero⟩ :=
    commitBatch_benign cfg (mkEnv hashAt logs latest) cur.number cur
      (logs (resolveBlockTag
        (reorgFetchFrom (st.lastProcessed.map (fun b => b.number)) cfg.startingBlock)
        cur.number) cur.number)
      { fetched := [(resolveBlockTag
          (reorgFetchFrom (st.lastProcessed.map (fun b => b.number)) cfg.startingBlock)
          cur.number, cur.number)]
        progress := []
        newEvents := []
        invalidConfirmations := droppedRows buf (logs (resolveBlockTag
          (reorgFetchFrom (st.lastProcessed.map (fun b => b.number)) cfg.startingBlock)
          cur.number) cur.number)
        reorgEmitted := false
        reorgOutOfRange := []
        errorChannel := []
        caught := []
        tracker := st
        buffer := [] }
      (fun _ => rfl)
  have hcne : cfg.confirmations ≠ 0 := by omega
  simp only [handleReorgRun, mkEnv_getPastLogs, hcf, initialCycle, List.nil_append]
  rw [hcb]
  refine ⟨c1, rfl, hfetch, ?_, ?_, (hpos hcne).1, (hpos hcne).2, hinv, htrk⟩
  · intro lp hlp hne
    simp [reorgFromNumber, reorgFetchFrom, hlp, hne, resolveBlockTag]
  · intro hlp
    simp [reorgFromNumber, reorgFetchFrom, hlp]

/-- Counterexample to C4 as stated: with lastProcessed stored at block 0,
the refetch starts at startingBlock (block 0), not at lastProcessed.number
+ 1 = 1; and after the call a buffered row (for the refetched,
still-unconfirmed event evA10) remains for the contract. -/
theorem C4_counterexample :
    (handleReorgRun cfgConf2 env4 ⟨10, "c10"⟩ (initialCycle trkP0 [evB3])).1.buffer = [evA10] ∧
    (handleReorgRun cfgConf2 env4 ⟨10, "c10"⟩ (initialCycle trkP0 [evB3])).1.fetched = [(0, 10)] ∧
    trkP0.lastProcessed = some ⟨0, "p0"⟩ ∧
    (handleReorgRun cfgConf2 env4 ⟨10, "c10"⟩ (initialCycle trkP0 [evB3])).2 = none :=
  ⟨rfl, rfl, rfl, rfl⟩

/-- Witness for C4 at a concrete input: the reorg handling for trkP0
completes without error and leaves lastFetched at the current block. -/
theorem C4_handleReorg_witness :
    ∃ c, handleReorgRun cfgConf2 (mkEnv (fun _ => "h") (fun _ _ => [evA10]) ⟨10, "c10"⟩)
      ⟨10, "c10"⟩ (initialCycle trkP0 [evB3]) = (c, none) ∧
      c.tracker.lastFetched = some ⟨10, "c10"⟩ := by
  obtain ⟨c, h1, h2, h3, h4, h5, h6, h7, h8⟩ :=
    C4_handleReorg cfgConf2 (fun _ => "h") (fun _ _ => [evA10]) ⟨10, "c10"⟩ trkP0 [evB3]
      ⟨10, "c10"⟩ rfl (by decide)
  exact ⟨c, h1, h8⟩

/-- C1 amended: a fetch cycle over a closed range [from, to] with from ≤ to
and batchSize ≥ 2 performs exactly `countOfBatches` batches, where
countOfBatches is the source's formula `to = from ? 1 :
ceil((to - from) / (batchSize - 1))` — NOT the spec's
ceil((to - from + 1) / batchSize); batch i covers the closed interval
[from + i·batchSize, min(from + (i+1)·batchSize - 1, to)], and every block
of [from, to] lies in exactly one batch interval (the surplus batches the
source formula adds beyond the spec count have empty, inverted intervals). -/
theorem C1_batching (cfg : EmitterConfig) (hashAt : Nat → String)
    (logs : Nat → Nat → List EventData) (latest : BlockRef) (cur fromB toB : Nat)
    (st : TrackerState) (buf : List EventData)
    (hbs : 2 ≤ cfg.batchSize) (hle : fromB ≤ toB) :
    ∃ c, batchFetchAndProcessEvents cfg (mkEnv hashAt logs latest) (.num fromB) (.num toB) cur
        (initialCycle st buf) = (c, none) ∧
      countOfBatches fromB toB cfg.batchSize =
        (if toB = fromB then 1
         else (toB - fromB + (cfg.batchSize - 1) - 1) / (cfg.batchSize - 1)) ∧
      c.fetched = (List.range (countOfBatches fromB toB cfg.batchSize)).map
        (batchInterval fromB toB cfg.batchSize) ∧
      c.progress.length = countOfBatches fromB toB cfg.batchSize ∧
      (∀ n, fromB ≤ n → n ≤ toB →
        ∃! i, i < countOfBatches fromB toB cfg.batchSize ∧
          (batchInterval fromB toB cfg.batchSize i).1 ≤ n ∧
          n ≤ (batchInterval fromB toB cfg.batchSize i).2) := by
  obtain ⟨c, hb, hf, hp, hcaught, herr⟩ :=
    batchFetchAndProcessEvents_benign cfg hashAt logs latest cur fromB toB
      (initialCycle st buf) hle
  refine ⟨c, hb, rfl, ?_, ?_,
    fun n h1 h2 => batch_partition fromB toB cfg.batchSize hbs hle n h1 h2⟩
  · rw [hf]
    simp [initialCycle]
  · rw [hp]
    simp [initialCycle]

/-- Counterexample to C1 as stated: over [0, 239] with batchSize 120 the
claim's count ceil((239 - 0 + 1)/120) is 2, but the code runs 3 batches —
the third with the inverted range [240, 239]. -/
theorem C1_counterexample :
    (batchFetchAndProcessEvents cfgNoConf envPlain (.num 0) (.num 239) 239
      (initialCycle trk0 [])).1.fetched = [(0, 119), (120, 239), (240, 239)] ∧
    specBatchCount 0 239 120 = 2 ∧
    countOfBatches 0 239 120 = 3 := ⟨rfl, rfl, rfl⟩

/-- Witness for C1 at a concrete input: scenario S1's catch-up over
[100, 340] with batchSize 100 scans exactly the three intervals
[100,199], [200,299], [300,340]. -/
theorem C1_batching_witness :
    ∃ c, batchFetchAndProcessEvents cfgB100 (mkEnv (fun _ => "h") (fun _ _ => []) ⟨340, "h"⟩)
        (.num 100) (.num 340) 340 (initialCycle trk0 []) = (c, none) ∧
      c.fetched = (List.range (countOfBatches 100 340 100)).map (batchInterval 100 340 100) := by
  obtain ⟨c, hb, hcnt, hf, hp, hpart⟩ :=
    C1_batching cfgB100 (fun _ => "h") (fun _ _ => []) ⟨340, "h"⟩ 340 100 340 trk0 []
      (by decide) (by decide)
  exact ⟨c, hb, hf⟩

/-- C8 amended: when no last-fetched block is stored, init's catch-up
starts at startingBlock, with 'genesis' resolving to block 0 and a numeric
startingBlock used as-is, and completes without error over the closed
range up to the current head; the alias 'latest' is NOT resolved for the
starting position — it flows into batchFetchAndProcessEvents as a string
and the catch-up fails with the TypeError 'fromBlock and toBlock has to be
numbers!'. -/
theorem C8_starting_block (cfg : EmitterConfig) (hashAt : Nat → String)
    (logs : Nat → Nat → List EventData) (latest : BlockRef) (st : TrackerState)
    (buf : List EventData) (hnone : st.lastFetched = none) (hbs : 2 ≤ cfg.batchSize) :
    (cfg.startingBlock = .genesis →
      ∃ c, initRun cfg (mkEnv hashAt logs latest) st buf = (c, none) ∧
        c.fetched.head? = some (0, min (cfg.batchSize - 1) latest.number)) ∧
    (∀ k, cfg.startingBlock = .num k → k ≤ latest.number →
      ∃ c, initRun cfg (mkEnv hashAt logs latest) st buf = (c, none) ∧
        c.fetched.head? = some (k, min (k + cfg.batchSize - 1) latest.number)) ∧
    (cfg.startingBlock = .latest →
      ∃ c, initRun cfg (mkEnv hashAt logs latest) st buf = (c, some .notNumbers) ∧
        c.fetched = []) := by
  refine ⟨fun hsb => ?_, fun k hsb hk => ?_, fun hsb => ?_⟩
  · obtain ⟨c, hb, hf, hp, hcaught, herr⟩ :=
      batchFetchAndProcessEvents_benign cfg hashAt logs latest latest.number 0 latest.number
        (initialCycle st buf) (by omega)
    have hpos : 0 < countOfBatches 0 latest.number cfg.batchSize :=
      countOfBatches_pos _ _ _ hbs (by omega)
    simp only [initRun, hnone, processPastEventsRun, mkEnv_getLatest, hsb]
    rw [hb]
    refine ⟨c, rfl, ?_⟩
    rw [hf]
    simp only [initialCycle, List.nil_append]
    rw [range_map_head _ _ hpos]
    simp [batchInterval]
  · obtain ⟨c, hb, hf, hp, hcaught, herr⟩ :=
      batchFetchAndProcessEvents_benign cfg hashAt logs latest latest.number k latest.number
        (initialCycle st buf) hk
    have hpos : 0 < countOfBatches k latest.number cfg.batchSize :=
      countOfBatches_pos _ _ _ hbs hk
    simp only [initRun, hnone, processPastEventsRun, mkEnv_getLatest, hsb]
    rw [hb]
    refine ⟨c, rfl, ?_⟩
    rw [hf]
    simp only [initialCycle, List.nil_append]
    rw [range_map_head _ _ hpos]
    simp [batchInterval]
  · simp only [initRun, hnone, processPastEventsRun, mkEnv_getLatest, hsb,
      batchFetchAndProcessEvents]
    exact ⟨initialCycle st buf, rfl, rfl⟩

/-- Counterexample to C8 as stated: with startingBlock = 'latest' and no
stored last-fetched block, the initial catch-up does not resolve the alias
and aborts with a TypeError instead of completing. -/
theorem C8_counterexample :
    (initRun cfgLatest envPlain trk0 []).2 = some JsError.notNumbers ∧
    cfgLatest.startingBlock = StartingBlock.latest := ⟨rfl, rfl⟩

/-- Witness for C8 at a concrete input: with startingBlock 'genesis' and
head 10, the first batch starts at block 0. -/
theorem C8_starting_block_witness :
    ∃ c, initRun cfgNoConf envPlain trk0 [] = (c, none) ∧
      c.fetched.head? = some (0, min 119 10) := by
  obtain ⟨h1, h2, h3⟩ :=
    C8_starting_block cfgNoConf (fun _ => "h") (fun _ _ => []) ⟨10, "h"⟩ trk0 [] rfl (by decide)
  exact h1 rfl

end Web3Events
